import Mathlib

/-!
Verification of the PathMe pathway converters (KEGG / Reactome / WikiPathways
to BEL).  The Python sources are shallowly embedded: dictionaries become
association lists, pybel DSL nodes become the `Bel` inductive, raised
exceptions become `Except`, and the recursive RDF walks become fuel-indexed
evaluators.
-/

namespace PathMe

/-! ## String helpers mirroring Python `str` methods -/

/-- Python `str.lower` (ASCII case folding, which covers every name used). -/
def toLowerStr (s : String) : String := String.mk (s.toList.map Char.toLower)

/-- Strip characters satisfying `p` from both ends of a character list,
mirroring Python `str.strip(chars)`. -/
def stripList (p : Char → Bool) (l : List Char) : List Char :=
  ((l.dropWhile p).reverse.dropWhile p).reverse

/-- Python `str.strip(chars)` on strings. -/
def stripBoth (p : Char → Bool) (s : String) : String :=
  String.mk (stripList p s.toList)

/-- Python whitespace set used by bare `str.strip()`. -/
def isPyWS (c : Char) : Bool :=
  c == ' ' || c == '\t' || c == '\n' || c == '\x0d' ||
    c == Char.ofNat 11 || c == Char.ofNat 12

/-- Python `str.strip()` (whitespace). -/
def stripWS (s : String) : String := stripBoth isPyWS s

/-- Python `str.strip(chr)` for the double-quote character. -/
def stripQuotes (s : String) : String := stripBoth (· == '"') s

/-- `s.startswith(pat)` in Python. -/
def strHasPre (pat s : String) : Bool := pat.toList.isPrefixOf s.toList

/-- Helper: does `pat` occur as a contiguous sublist? -/
def subListOccurs (pat : List Char) : List Char → Bool
  | [] => pat.isPrefixOf ([] : List Char)
  | c :: cs => pat.isPrefixOf (c :: cs) || subListOccurs pat cs

/-- Python `pat in s` (substring containment). -/
def strContains (pat s : String) : Bool := subListOccurs pat.toList s.toList

/-- Python `c in s` for a single character. -/
def charIn (c : Char) (s : String) : Bool := s.toList.contains c

/-- Auxiliary left-to-right non-overlapping replacement on character
lists, fuelled by the list length (each step consumes at least one
character for a non-empty pattern, so the fuel never runs out in
`replaceSub`). -/
def replaceAux (pat rep : List Char) : Nat → List Char → List Char
  | 0, l => l
  | _ + 1, [] => []
  | n + 1, c :: cs =>
    if pat.isPrefixOf (c :: cs) then
      rep ++ replaceAux pat rep n (cs.drop (pat.length - 1))
    else
      c :: replaceAux pat rep n cs

/-- Python `s.replace(pat, rep)` for a non-empty pattern. -/
def replaceSub (s pat rep : String) : String :=
  String.mk (replaceAux pat.toList rep.toList s.toList.length s.toList)

/-- Split on a separator character, mirroring Python `str.split(sep)`. -/
def splitAux (sep : Char) (acc : List Char) : List Char → List (List Char)
  | [] => [acc.reverse]
  | c :: cs => if c == sep then acc.reverse :: splitAux sep [] cs
               else splitAux sep (c :: acc) cs

/-- Python `s.split(sep)` for a one-character separator. -/
def splitStr (sep : Char) (s : String) : List String :=
  (splitAux sep [] s.toList).map String.mk

/-- Python `s[:n]`. -/
def takeChars (n : Nat) (s : String) : String := String.mk (s.toList.take n)

/-- Python `s[:-1]`. -/
def dropLastChar (s : String) : String := String.mk s.toList.dropLast

/-- Python `str.isdigit` (ASCII digits). -/
def isDigitStr (s : String) : Bool := !s.toList.isEmpty && s.toList.all Char.isDigit

/-- Python `str.isalpha` (ASCII letters). -/
def isAlphaStr (s : String) : Bool := !s.toList.isEmpty && s.toList.all Char.isAlpha

/-! ## BEL nodes (pybel DSL)

The pybel class hierarchy relevant to PathMe:
`CentralDogma` covers `Protein`, `Gene`, `Rna` and `MicroRna`
(`MicroRna` subclasses `Rna`); `ComplexAbundance` and `CompositeAbundance`
are the two `ListAbundance` classes.  Node data is the constructor plus the
`(namespace, name, identifier)` entries, any of which pybel allows to be
absent, plus protein-modification variants for `CentralDogma` nodes. -/

inductive Bel : Type where
  | protein (ns name ident : Option String) (variants : List String)
  | gene (ns name ident : Option String) (variants : List String)
  | rna (ns name ident : Option String) (variants : List String)
  | microRna (ns name ident : Option String) (variants : List String)
  | abundance (ns name ident : Option String)
  | bioProcess (ns name ident : Option String)
  | complexAb (members : List Bel) (ns ident : Option String)
  | compositeAb (members : List Bel)
  | rxn (reactants products : List Bel)

/-- `isinstance(v, CentralDogma)` in pybel. -/
def Bel.isCentralDogma : Bel → Bool
  | .protein .. | .gene .. | .rna .. | .microRna .. => true
  | _ => false

/-- `isinstance(v, ListAbundance)` in pybel. -/
def Bel.isListAbundance : Bel → Bool
  | .complexAb .. | .compositeAb .. => true
  | _ => false

/-- `isinstance(v, Reaction)` in pybel. -/
def Bel.isReaction : Bel → Bool
  | .rxn .. => true
  | _ => false

/-- `node.name` (pybel nodes without a name yield `None`). -/
def Bel.nodeName : Bel → Option String
  | .protein _ n _ _ | .gene _ n _ _ | .rna _ n _ _ | .microRna _ n _ _
  | .abundance _ n _ | .bioProcess _ n _ => n
  | .complexAb .. | .compositeAb .. | .rxn .. => none

/-- `node.namespace`. -/
def Bel.nodeNs : Bel → Option String
  | .protein ns _ _ _ | .gene ns _ _ _ | .rna ns _ _ _ | .microRna ns _ _ _
  | .abundance ns _ _ | .bioProcess ns _ _ => ns
  | .complexAb _ ns _ => ns
  | .compositeAb .. | .rxn .. => none

/-- `node.identifier`. -/
def Bel.nodeIdent : Bel → Option String
  | .protein _ _ i _ | .gene _ _ i _ | .rna _ _ i _ | .microRna _ _ i _
  | .abundance _ _ i | .bioProcess _ _ i => i
  | .complexAb _ _ i => i
  | .compositeAb .. | .rxn .. => none

/-- `v.with_variants(pmod(tag))`: replace the variant list on a
`CentralDogma` node (other nodes are untouched, matching the guarded call
sites in the KEGG converter). -/
def Bel.withPmod (v : Bel) (tag : String) : Bel :=
  match v with
  | .protein ns n i _ => .protein ns n i [tag]
  | .gene ns n i _ => .gene ns n i [tag]
  | .rna ns n i _ => .rna ns n i [tag]
  | .microRna ns n i _ => .microRna ns n i [tag]
  | other => other

/-- `v.get_rna()`: coerce a `CentralDogma` node to its RNA form, keeping
namespace, name and identifier (other nodes are untouched, matching the
guarded call sites). -/
def Bel.getRna (v : Bel) : Bel :=
  match v with
  | .protein ns n i _ => .rna ns n i []
  | .gene ns n i _ => .rna ns n i []
  | .rna ns n i _ => .rna ns n i []
  | .microRna ns n i _ => .rna ns n i []
  | other => other

/-! ## KGML relation extraction (`pathme/kegg/kegg_xml_parser.py`) -/

/-- A KGML `subtype` element: `name` and `value` attributes (either may be
absent, `Element.get` returns `None` then). -/
structure KgmlSubtype where
  stName : Option String
  stValue : Option String

/-- A KGML `relation` element: `entry1`, `entry2`, `type` attributes and its
nested `subtype` elements. -/
structure KgmlRelation where
  entry1 : Option String
  entry2 : Option String
  rtype : String
  subtypes : List KgmlSubtype

/-- One iteration of the inner `for subtype in relation.iter('subtype')`
loop of `get_all_relationships`: the tuples appended for this subtype. -/
def relationshipTuples (r : KgmlRelation) (st : KgmlSubtype) :
    List (Option String × Option String × Option String) :=
  if r.rtype == "PPrel" || r.rtype == "PCrel" || r.rtype == "GErel" then
    if st.stName == some "compound" then
      [(r.entry1, r.entry2, some "binding/association")]
    else
      [(r.entry1, r.entry2, st.stName)]
  else if strHasPre "ECrel" r.rtype then
    [(r.entry1, r.entry2, some "binding/association"),
     (r.entry1, st.stValue, some "binding/association"),
     (st.stValue, r.entry2, some "binding/association")]
  else if strHasPre "maplink" r.rtype then
    [(r.entry1, r.entry2, some "binding/association")]
  else
    []

/-- `get_all_relationships`: all relationship tuples of the XML tree. -/
def getAllRelationships (rels : List KgmlRelation) :
    List (Option String × Option String × Option String) :=
  rels.flatMap fun r => r.subtypes.flatMap (relationshipTuples r)

/-! ## KEGG node construction (`pathme/kegg/convert_to_bel.py`) -/

/-- Python dictionaries with string keys and values, as association lists
(first binding wins on lookup; `dictSet` overwrites in place). -/
abbrev PyDict := List (String × String)

/-- `d[k]` lookup returning `None` on a missing key. -/
def dictGet (d : PyDict) (k : String) : Option String := d.lookup k

/-- `d[k] = v` assignment. -/
def dictSet (d : PyDict) (k v : String) : PyDict :=
  if (d.lookup k).isSome then
    d.map fun p => if p.1 == k then (k, v) else p
  else
    d ++ [(k, v)]

/-- The protein node built from one KEGG gene attribute dictionary — the
shared body of the HGNC / UniProt / KEGG-fallback branches of
`gene_to_bel_node` and `flatten_gene_to_bel_node`.  `none` models the
`KeyError` a missing mandatory key would raise. -/
def keggProteinFromAttr (a : PyDict) : Option Bel :=
  if (dictGet a "HGNC").isSome then
    match dictGet a "HGNC symbol", dictGet a "HGNC" with
    | some sym, some hgncId => some (.protein (some "HGNC") (some sym) (some hgncId) [])
    | _, _ => none
  else if (dictGet a "UniProt").isSome then
    match dictGet a "UniProt" with
    | some uid => some (.protein (some "UniProt") (some uid) (some uid) [])
    | none => none
  else
    match dictGet a "kegg_id" with
    | some kid => some (.protein (some "kegg") (some kid) (some kid) [])
    | none => none

/-- The value returned by `flatten_gene_to_bel_node`: a single BEL node or a
plain Python list of BEL nodes (downstream code branches on
`isinstance(x, list)`). -/
inductive NodeOrList where
  | one (b : Bel)
  | many (bs : List Bel)

/-- Map a fallible function over a list, failing if any element fails
(explicit recursion in place of `mapM` for proof convenience). -/
def mapOption (f : α → Option β) : List α → Option (List β)
  | [] => some []
  | a :: as => do
    let b ← f a
    let bs ← mapOption f as
    pure (b :: bs)

/-- `gene_to_bel_node`: one attribute dictionary gives a protein node, any
other number gives a `composite_abundance` over the member proteins. -/
def geneToBelNode (node : List PyDict) : Option Bel :=
  match node with
  | [a] => keggProteinFromAttr a
  | _ => (mapOption keggProteinFromAttr node).map Bel.compositeAb

/-- `flatten_gene_to_bel_node`: one attribute dictionary gives a protein
node, any other number gives the flat list of member proteins. -/
def flattenGeneToBelNode (node : List PyDict) : Option NodeOrList :=
  match node with
  | [a] => (keggProteinFromAttr a).map NodeOrList.one
  | _ => (mapOption keggProteinFromAttr node).map NodeOrList.many

/-! ## Gene-registry resolution (claims about multi-entry UniProt matches)

`bio2bel_hgnc.Manager.get_gene_by_uniprot_id` may return 0, 1 or N entries;
it is modelled as a function into `List HgncEntry`.  `symbol`/`identifier`
are the HGNC symbol and HGNC id; `dbId` models the ORM primary key
(`entry.id`), which `process_multiple_proteins` uses as the node
identifier. -/
structure HgncEntry where
  symbol : String
  identifier : String
  dbId : String

/-- `pathme/wikipathways/utils.py::_validate_query` for list-valued query
results (the UniProt / Entrez / Ensembl paths).  `aliasLookup` stands for
`_get_update_alias_symbol`'s `get_hgnc_from_alias_symbol` call, reachable
only when the namespace is HGNC. -/
def validateQuery (aliasLookup : String → Option HgncEntry)
    (queryResult : List HgncEntry) (originalIdentifier originalNamespace : String) :
    String × String × String :=
  if queryResult.isEmpty && originalNamespace == "HGNC" then
    match aliasLookup originalIdentifier with
    | none => (originalNamespace, originalIdentifier, originalIdentifier)
    | some q => ("HGNC", q.symbol, q.identifier)
  else
    match queryResult with
    | [] => (originalNamespace, originalIdentifier, originalIdentifier)
    | q :: _ => ("HGNC", q.symbol, q.identifier)

/-- One iteration of the `DBLINKS` loop of
`pathme/kegg/kegg_xml_parser.py::_post_process_api_query`. -/
def postProcessStep (hgncById : String → Option HgncEntry)
    (hgncByUniprot : String → List HgncEntry)
    (chebiNameById : String → Option String)
    (nodeDict : PyDict) (link : String × String) : PyDict :=
  let resource := link.1
  let identifier := link.2
  if !(resource == "HGNC" || resource == "UniProt" || resource == "ChEBI" || resource == "PubChem") then
    nodeDict
  else if resource == "HGNC" then
    match hgncById identifier with
    | none => nodeDict
    | some e => dictSet (dictSet nodeDict "HGNC" identifier) "HGNC symbol" e.symbol
  else if resource == "UniProt" then
    match hgncByUniprot identifier with
    | [] => nodeDict
    | e :: _ =>
      let nodeDict := dictSet nodeDict "HGNC" e.identifier
      if e.symbol != "" then dictSet nodeDict "HGNC symbol" e.symbol
      else dictSet nodeDict "UniProt" identifier
  else
    let nodeDict := dictSet nodeDict resource identifier
    if resource == "ChEBI" then
      (splitStr ' ' identifier).foldl
        (fun acc chebiId =>
          match chebiNameById chebiId with
          | none => acc
          | some nm => dictSet acc "ChEBI name" nm)
        nodeDict
    else
      nodeDict

/-- `_post_process_api_query` on the `DBLINKS` records of one entity. -/
def postProcessApiQuery (hgncById : String → Option HgncEntry)
    (hgncByUniprot : String → List HgncEntry)
    (chebiNameById : String → Option String)
    (dblinks : List (String × String)) : PyDict :=
  dblinks.foldl (postProcessStep hgncById hgncByUniprot chebiNameById) []

/-- `pathme/reactome/convert_to_bel.py::process_multiple_proteins`. -/
def processMultipleProteins (entries : List HgncEntry) : List Bel :=
  entries.map fun e => .protein (some "HGNC") (some e.symbol) (some e.dbId) []

/-- The UniProt slice of `pathme/reactome/convert_to_bel.py::node_to_bel`
for an entity whose `entity_type` contains `Protein` and whose URI
namespace is `uniprot`: registry miss keeps the UniProt namespace, a
multi-entry match returns a composite over all candidates
(`process_multiple_proteins`), a unique match uses `get_hgnc_node_info`. -/
def reactomeNodeToBelUniprot (hgncByUniprot : String → List HgncEntry)
    (identifier name : String) : Bel :=
  match hgncByUniprot identifier with
  | [] => .protein (some "UniProt") (some name) (some identifier) []
  | [e] => .protein (some "HGNC") (some e.symbol) (some e.identifier) []
  | es => .compositeAb (processMultipleProteins es)

/-! ## Edge construction -/

/-- The BEL relation kinds emitted by the three converters. -/
inductive RelKind where
  | increases | decreases | association | regulates | translation
  deriving DecidableEq, Repr

/-- One emitted graph edge: `graph.add_increases(u, v, citation=…,
evidence=…, subject_modifier=…, object_modifier=…, annotations=…)` and
friends.  Activity modifiers are `some name` (`activity()` is `some ""`,
`activity('cat')` is `some "cat"`); the `EdgeTypes` annotation of a
`regulates` edge is kept in `annots`. -/
structure EdgeRec where
  src : Bel
  tgt : Bel
  kind : RelKind
  citation : String
  evidence : String
  subjActivity : Option String
  objActivity : Option String
  annots : List String

/-- `pathme/constants.py::KEGG_MODIFICATIONS`. -/
def KEGG_MODIFICATIONS : PyDict :=
  [("phosphorylation", "Ph"), ("glycosylation", "Glyco"),
   ("ubiquitination", "Ub"), ("methylation", "Me")]

/-- `pathme/constants.py::KEGG_CITATION`. -/
def KEGG_CITATION : String := "10592173"

/-- `pathme/kegg/convert_to_bel.py::add_simple_edge`.  The relation type
comes third out of the relationship tuples and may be `None`; an
unrecognized value raises `ValueError` (`Except.error`). -/
def addSimpleEdgeKegg (u v : Bel) (relationType : Option String) :
    Except String (List EdgeRec) :=
  match relationType with
  | none => .error "Unexpected relation type None"
  | some rt =>
    if rt == "phosphorylation" || rt == "glycosylation" || rt == "ubiquitination"
        || rt == "methylation" then
      let v := if v.isCentralDogma then v.withPmod ((KEGG_MODIFICATIONS.lookup rt).getD "") else v
      .ok [⟨u, v, .increases, "", "", some "", none, []⟩]
    else if rt == "dephosphorylation" then
      let v := if v.isCentralDogma then v.withPmod "Ph" else v
      .ok [⟨u, v, .decreases, KEGG_CITATION, "", some "", none, []⟩]
    else if rt == "activation" then
      .ok [⟨u, v, .increases, KEGG_CITATION, "", none, some "", []⟩]
    else if rt == "reversible" || rt == "irreversible" then
      .ok [⟨u, v, .increases, KEGG_CITATION, "", some "cat", none, []⟩]
    else if rt == "inhibition" then
      .ok [⟨u, v, .decreases, KEGG_CITATION, "", none, some "", []⟩]
    else if rt == "indirect effect" || rt == "binding/association" then
      .ok [⟨u, v, .association, KEGG_CITATION, "", none, none, []⟩]
    else if rt == "expression" then
      let v := if v.isCentralDogma then v.getRna else v
      .ok [⟨u, v, .increases, KEGG_CITATION, "", none, none, []⟩]
    else if rt == "repression" then
      let v := if v.isCentralDogma then v.getRna else v
      .ok [⟨u, v, .decreases, KEGG_CITATION, "", none, none, []⟩]
    else if rt == "dissociation" || rt == "hidden compound"
        || rt == "missing interaction" || rt == "state change" then
      .ok []
    else
      .error ("Unexpected relation type " ++ rt)

/-- `nodes[key]` where the key may be `None`; `none` models the `KeyError`
path. -/
def lookupNode (nodes : List (String × NodeOrList)) :
    Option String → Option NodeOrList
  | none => none
  | some k => nodes.lookup k

/-- Map a fallible edge builder over a list, concatenating results and
propagating the first raised error. -/
def mapExcept (f : α → Except ε (List β)) : List α → Except ε (List β)
  | [] => .ok []
  | a :: as => do
    let bs ← f a
    let rest ← mapExcept f as
    pure (bs ++ rest)

/-- One iteration of `pathme/kegg/convert_to_bel.py::add_edges`: the edges
emitted for a single relationship tuple.  A `KeyError` on either endpoint
is caught and the tuple skipped (`.ok []`); list-valued endpoints fan out
as a cross product. -/
def addEdgesTuple (nodes : List (String × NodeOrList))
    (t : Option String × Option String × Option String) :
    Except String (List EdgeRec) :=
  match lookupNode nodes t.1, lookupNode nodes t.2.1 with
  | some u, some v =>
    match u, v with
    | .many us, .many vs =>
      mapExcept (fun p => addSimpleEdgeKegg p.1 p.2 t.2.2)
        (us.flatMap fun a => vs.map fun b => (a, b))
    | .many us, .one b => mapExcept (fun a => addSimpleEdgeKegg a b t.2.2) us
    | .one a, .many vs => mapExcept (fun b => addSimpleEdgeKegg a b t.2.2) vs
    | .one a, .one b => addSimpleEdgeKegg a b t.2.2
  | _, _ => .ok []

/-- `add_edges` over the whole relationship list. -/
def addEdges (nodes : List (String × NodeOrList))
    (edges : List (Option String × Option String × Option String)) :
    Except String (List EdgeRec) :=
  mapExcept (addEdgesTuple nodes) edges

/-- `pathme/constants.py::ACTIVITY_ALLOWED_MODIFIERS` as an `isinstance`
test: the tuple `(abundance, protein, complex_abundance, rna)`; a pybel
`MicroRna` is an `Rna` subclass and therefore allowed. -/
def activityAllowed (v : Bel) : Bool :=
  match v with
  | .abundance .. | .protein .. | .complexAb .. | .rna .. | .microRna .. => true
  | _ => false

/-- `pathme/wikipathways/convert_to_bel.py::add_simple_edge`.  The RDF
interaction-type set is a set of strings; the branches are a Python
`elif` chain, so earlier matches shadow later ones.  An unhandled type set
is logged and dropped (`[]`). -/
def addSimpleEdgeWp (u v : Bel) (edgeTypes : List String) (uriId : String) :
    List EdgeRec :=
  if edgeTypes.contains "Stimulation" then
    [⟨u, v, .increases, uriId, "Extracted from WikiPathways", none,
      if activityAllowed v then some "" else none, []⟩]
  else if edgeTypes.contains "Inhibition" then
    [⟨u, v, .decreases, uriId, "Extracted from WikiPathways", none,
      if activityAllowed v then some "" else none, []⟩]
  else if edgeTypes.contains "Catalysis" then
    [⟨u, v, .increases, uriId, "Extracted from WikiPathways", none,
      if activityAllowed v then some "" else none, []⟩]
  else if edgeTypes.contains "DirectedInteraction" then
    [⟨u, v, .regulates, uriId, "Extracted from WikiPathways", none, none, edgeTypes⟩]
  else if edgeTypes.contains "Interaction" then
    []
  else if edgeTypes.contains "TranscriptionTranslation" then
    [⟨u, v, .translation, "", "", none, none, []⟩]
  else
    []

/-- `pathme/reactome/convert_to_bel.py::add_simple_edge`.  Here
`edge_types` is the single `interaction_type` string and `in` is substring
containment; the object activity modifier is attached unconditionally. -/
def addSimpleEdgeReactome (u v : Bel) (edgeTypes : String) (uriId : String) :
    List EdgeRec :=
  if strContains "ACTIVATION" edgeTypes then
    [⟨u, v, .increases, uriId, "", none, some "", []⟩]
  else if strContains "INHIBITION" edgeTypes then
    [⟨u, v, .decreases, uriId, "", none, some "", []⟩]
  else
    []

/-! ## Name normalization (`pathme/normalize_names.py`) -/

/-- `isinstance(node, Abundance)`. -/
def Bel.isAbundanceCls : Bel → Bool
  | .abundance .. => true
  | _ => false

/-- `isinstance(node, BiologicalProcess)`. -/
def Bel.isBioProcessCls : Bel → Bool
  | .bioProcess .. => true
  | _ => false

/-- Curated biological-process names from WikiPathways
(`WIKIPATHWAYS_BIOL_PROCESS`). -/
def WIKIPATHWAYS_BIOL_PROCESS : List String :=
  ["lipid biosynthesis", "hsc survival", "glycolysis & gluconeogenesis",
   "triacylglyceride  synthesis", "wnt canonical signaling", "regulation of actin skeleton",
   "fatty acid metabolism", "mrna processing major splicing pathway", "senescence",
   "monocyte differentiation", "pentose phosphate pathway", "ethanolamine  phosphate",
   "hsc differentiation", "actin, stress fibers and adhesion",
   "regulation of actin cytoskeleton", "s-phase progression", "g1-s transition",
   "toll-like receptor signaling pathway", "regulation of  actin cytoskeleton",
   "proteasome degradation", "apoptosis", "bmp pathway", "ampk activation",
   "g1/s checkpoint arrest", "mapk signaling pathway",
   "chromatin remodeling and  epigenetic modifications", "wnt signaling pathway",
   "ros production", "erbb signaling pathway", "shh pathway", "inflammation",
   "dna replication", "mrna translation", "oxidative stress",
   "cell cycle checkpoint activation", "gi/go pathway", "wnt pathway",
   "g1/s transition of mitotic cell cycle", "modulation of estrogen receptor signalling",
   "dna repair", "bmp canonical signaling", "igf and insuline signaling",
   "unfolded protein response", "cell death",
   "p38/mapk  pathway", "glycogen metabolism", "gnrh signal pathway",
   "the intra-s-phase checkpoint mediated arrest of cell cycle progression", "tca cycle",
   "mtor protein kinase signaling pathway", "proteasome  degradation pathway",
   "morphine metabolism", "hsc aging",
   "gastric pepsin release", "parietal cell production", "prostaglandin pathway",
   "cell cycle (g1/s)  progression",
   "notch pathway", "g2/m progression", "wnt signaling", "cell adhesion",
   "cell cycle progression", "egfr pathway",
   "cell cycle", "angiogenesis", "g2/m-phase checkpoint", "hsc self renewal",
   "26s proteasome  degradation",
   "mapk signaling", "immune system up or down regulation", "m-phase progression",
   "insulin signaling",
   "nf kappa b pathway", "cell cycle  progression", "gi pathway",
   "cd45+ hematopoietic-    derived cell    proliferation",
   "kreb\u0027s cycle", "glycogen synthesis", "apoptosis pathway",
   "g1/s progression", "inflammasome activation", "melanin biosynthesis",
   "proteasomal degradation",
   "g2/m checkpoint arrest",
   "g1/s cell cycle transition", "dna damage response", "gastric histamine release"]

/-- WikiPathways abundances protected from biological-process
reclassification (`WIKIPATHWAYS_METAB`). -/
def WIKIPATHWAYS_METAB : List String :=
  ["2,8-dihydroxyadenine", "8,11-dihydroxy-delta-9-thc", "adp-ribosyl", "cocaethylene",
   "dhcer1p",
   "ecgonidine", "f2-isoprostane", "fumonisins b1", "iodine", "l-glutamate",
   "lactosylceramide",
   "methylecgonidine", "n-acetyl-l-aspartate", "nad+", "nadph oxidase", "neuromelanin",
   "nicotinic acid (na)", "nmn", "pip2", "sphingomyelin", "thf"]

/-- Name alias table (`WIKIPATHWAYS_NAME_NORMALIZATION`). -/
def WIKIPATHWAYS_NAME_NORMALIZATION : PyDict :=
  [("Ca 2+", "ca 2+"), ("acetyl coa", "acetyl-coa"), ("acetyl-coa(mit)", "acetyl-coa"),
   ("h20", "h2o")]

/-- `BLACK_LIST_REACTOME`. -/
def BLACK_LIST_REACTOME : List String := ["5\u0027"]

/-- Reactome names misclassified as metabolites (`REACTOME_PROT`). -/
def REACTOME_PROT : List String :=
  ["phospho-g2/m transition proteins", "integrin alpha5beta1, integrin alphavbeta3, cd47",
   "food proteins", "activated fgfr2", "adherens junction-associated proteins",
   "pi3k mutants,activator:pi3k", "prolyl 3-hydroxylases", "gpi-anchored proteins",
   "c3d, c3dg, ic3b",
   "c4s/c6s chains", "activated fgfr1 mutants and fusions", "activated fgfr3 mutants",
   "protein",
   "cyclin a2:cdk2 phosphorylated g2/m transition protein", "c4c, c3f", "activated raf/ksr1",
   "activated fgfr1 mutants", "g2/m transition proteins", "lman family receptors", "cyclin",
   "usp12:wdr48:wdr20,usp26", "proteins with cleaved gpi-anchors", "activated fgfr2 mutants",
   "c4d, ic3b",
   "c5b:c6:c7, c8, c9", "cyclin a1:cdk2 phosphorylated g2/m transition protein",
   "genetically or chemically inactive braf", "il13-downregulated proteins",
   "activated fgfr4 mutants",
   "rna-binding protein in rnp (ribonucleoprotein) complexes", "effector proteins",
   "usp3, saga complex",
   "dephosphorylated \"receiver\" raf/ksr1"]

/-- `gene.strip().strip(' gene').strip(' genes')` from
`process_reactome_multiple_genes`. -/
def mungeStrip (s : String) : String :=
  stripBoth (fun c => c == ' ' || c == 'g' || c == 'e' || c == 'n' || c == 's')
    (stripBoth (fun c => c == ' ' || c == 'g' || c == 'e' || c == 'n') (stripWS s))

/-- `lower_name.strip(' genes')` used for the one-to-one Reactome miRNA
replacement. -/
def stripGenesChars (s : String) : String :=
  stripBoth (fun c => c == ' ' || c == 'g' || c == 'e' || c == 'n' || c == 's') s

/-- `process_reactome_multiple_genes`: positional heuristic splitting a
multi-symbol Reactome gene cell. -/
def processReactomeMultipleGenes (genes : List String) : List String :=
  match genes with
  | [] => []
  | g0 :: _ =>
    genes.enum.filterMap fun p =>
      let g := mungeStrip p.2
      if p.1 == 0 then some g
      else if takeChars 2 g == takeChars 2 g0 then some g
      else if g.toList.length > 2 then some g
      else if isDigitStr g then some (dropLastChar g0 ++ g)
      else if g.toList.length == 1 then some (dropLastChar g0 ++ g)
      else none

/-- `munge_reactome_gene`: a comma or slash cell is split, anything else is
returned unchanged. -/
def mungeReactomeGene (gene : String) : String ⊕ List String :=
  if charIn ',' gene then .inr (processReactomeMultipleGenes (splitStr ',' gene))
  else if charIn '/' gene then .inr (processReactomeMultipleGenes (splitStr '/' gene))
  else .inl gene

/-- `node.name.lower().strip('"').strip()` — the generic per-name
normalization in `normalize_graph_names`. -/
def normName (s : String) : String := stripWS (stripQuotes (toLowerStr s))

/-- The body of the `normalize_graph_names` loop for a named node, with
the two loop locals (`name`, the raw `node.name`, and `lower_name`, its
generic normalization) passed explicitly. -/
def normalizeNamed (database : String) (node : Bel) (name lowerName : String) :
    Option Bel × List Bel :=
  if node.isCentralDogma then
    if strHasPre "mir" lowerName then
      if database == "reactome" then
        match mungeReactomeGene lowerName with
        | .inr cell =>
          (some (.microRna node.nodeNs
              (some (replaceSub (stripGenesChars (cell.getLastD lowerName)) "mir-" "mir"))
              none []),
           cell.map fun ln =>
             .microRna node.nodeNs (some (replaceSub ln "mir-" "mir")) node.nodeIdent [])
        | .inl _ =>
          (some (.microRna node.nodeNs
              (some (replaceSub (stripGenesChars lowerName) "mir-" "mir")) none []), [])
      else
        (some (.microRna node.nodeNs (some (replaceSub name "mir-" "mir"))
            node.nodeIdent []), [])
    else
      if database == "reactome" then
        match mungeReactomeGene lowerName with
        | .inr cell =>
          (none,
           cell.filterMap fun ln =>
             if BLACK_LIST_REACTOME.contains ln then none
             else
               some (.protein node.nodeNs
                 (some (if strHasPre "(" ln then
                     stripBoth (· == ')') (stripBoth (· == '(') ln)
                   else ln))
                 node.nodeIdent []))
        | .inl _ =>
          (some (.protein node.nodeNs (some lowerName) node.nodeIdent []), [])
      else if database == "wikipathways" && WIKIPATHWAYS_BIOL_PROCESS.contains lowerName then
        (some (.bioProcess node.nodeNs (some lowerName) node.nodeIdent), [])
      else
        (some (.protein node.nodeNs (some lowerName) node.nodeIdent []), [])
  else if node.isAbundanceCls then
    if database == "wikipathways" then
      if WIKIPATHWAYS_BIOL_PROCESS.contains lowerName then
        (some (.bioProcess node.nodeNs (some lowerName) node.nodeIdent), [])
      else if (node.nodeNs == some "WIKIDATA" || node.nodeNs == some "WIKIPATHWAYS"
          || node.nodeNs == some "REACTOME") && !WIKIPATHWAYS_METAB.contains lowerName then
        (some (.bioProcess node.nodeNs (some lowerName) node.nodeIdent), [])
      else
        (some (.abundance node.nodeNs
            (some ((WIKIPATHWAYS_NAME_NORMALIZATION.lookup lowerName).getD lowerName))
            node.nodeIdent), [])
    else if database == "reactome" then
      if REACTOME_PROT.contains lowerName then
        (some (.protein node.nodeNs (some lowerName) node.nodeIdent []), [])
      else if charIn ',' lowerName && (splitStr ',' lowerName).all isAlphaStr then
        (none,
         (splitStr ',' lowerName).map fun s =>
           .abundance node.nodeNs (some s) node.nodeIdent)
      else
        (some (.abundance node.nodeNs (some lowerName) node.nodeIdent), [])
    else
      (some (.abundance node.nodeNs (some lowerName) node.nodeIdent), [])
  else if node.isBioProcessCls then
    (some (.bioProcess node.nodeNs
        (some (if strHasPre "title:" lowerName then
            String.mk (lowerName.toList.drop 6)
          else lowerName))
        node.nodeIdent), [])
  else
    (none, [])

/-- The per-node action of `normalize_graph_names`: the `one_to_one`
replacement (if any) and the `one_to_many` survivors (if any) recorded for
this node.  `relabel_nodes` / `multi_relabel` then apply these mappings to
the graph. -/
def normalizeNode (database : String) (node : Bel) : Option Bel × List Bel :=
  if node.isListAbundance || node.isReaction || (node.nodeName.getD "") == "" then
    (none, [])
  else
    normalizeNamed database node (node.nodeName.getD "")
      (normName (node.nodeName.getD ""))

/-! ## Recursive participant / component walks (claim on termination)

`pathme/wikipathways/convert_to_bel.py::get_node` / `get_reaction_node`
recurse through interaction references (`nodes[s]` lookup, else a
`/Interaction/` URI resolved through the interactions mapping), and
`pathme/reactome/rdf_sparql.py::_get_entity_metadata` recurses through
`Complex` components.  Neither carries a visited-set guard, so they are
embedded as fuel-indexed evaluators: an outer `none` models
non-termination (fuel exhaustion at every depth bound), while `some r`
models the Python return value (`r = none` is Python's `None` result). -/

/-- `parse_id_uri(uri)[3]`: the last `/`-separated component (the
identifier position of the URI). -/
def parseIdIdentifier (uri : String) : String :=
  (splitStr '/' uri).getLastD ""

/-- The `nodes` and `interactions` mappings that `get_node` closes over:
BEL nodes by id, and interaction participants (source/target pairs) by
interaction identifier. -/
structure WpCtx where
  nodes : List (String × Bel)
  interactions : List (String × List (String × String))

/-- The participant loop of `get_reaction_node`: evaluate every source and
target with the supplied evaluator, keeping the found ones as reactants
and products (`None` participants are logged and skipped).  An outer
`none` from the evaluator (fuel exhaustion) propagates. -/
def getPartsF (getN : String → Option (Option Bel)) :
    List (String × String) → Option (List Bel × List Bel)
  | [] => some ([], [])
  | (src, tgt) :: rest =>
    match getN src with
    | none => none
    | some rsrc =>
      match getN tgt with
      | none => none
      | some rtgt =>
        match getPartsF getN rest with
        | none => none
        | some (rs, ps) =>
          some ((match rsrc with | some b => [b] | none => []) ++ rs,
                (match rtgt with | some b => [b] | none => []) ++ ps)

/-- Fuel-indexed `get_node`: a known node id resolves directly; a
`/Interaction/` URI whose identifier is a known interaction builds the
referenced reaction node recursively; anything else is a logged `None`. -/
def getNodeF (ctx : WpCtx) : Nat → String → Option (Option Bel)
  | 0, _ => none
  | n + 1, s =>
    match ctx.nodes.lookup s with
    | some b => some (some b)
    | none =>
      if strContains "/Interaction/" s then
        match ctx.interactions.lookup (parseIdIdentifier s) with
        | some ps =>
          match getPartsF (getNodeF ctx n) ps with
          | none => none
          | some (rs, prods) => some (some (.rxn rs prods))
        | none => some none
      else
        some none

/-- The per-entity metadata the Reactome walk consumes: the `entity_type`
and the `complex_components` references (`query_result_to_dict` yields the
`unknown` type for an entity with no rows). -/
structure EntityMeta where
  entityType : String
  components : List String

/-- The metadata tree `_get_entity_metadata` materializes: the entity type
with recursively fetched component metadata. -/
inductive MetaTree where
  | node (entityType : String) (components : List MetaTree)

/-- The component loop of `_get_entity_metadata`. -/
def metaListF (g : String → Option MetaTree) : List String → Option (List MetaTree)
  | [] => some []
  | c :: cs =>
    match g c with
    | none => none
    | some t =>
      match metaListF g cs with
      | none => none
      | some ts => some (t :: ts)

/-- Fuel-indexed `_get_entity_metadata`: `Complex` entities recurse into
their components, every other type returns directly. -/
def getMetaF (entities : List (String × EntityMeta)) : Nat → String → Option MetaTree
  | 0, _ => none
  | n + 1, uri =>
    let meta := (entities.lookup uri).getD ⟨"unknown", []⟩
    if meta.entityType == "Complex" then
      match metaListF (getMetaF entities n) meta.components with
      | none => none
      | some ts => some (.node meta.entityType ts)
    else
      some (.node meta.entityType [])

/-- A self-referencing interaction: the reaction's own participant is the
interaction's URI. -/
def wpCycCtx : WpCtx :=
  ⟨[], [("id1", [("http://x/Interaction/id1", "http://x/Interaction/id1")])]⟩

/-- The URI starting the cyclic WikiPathways walk. -/
def wpCycStart : String := "http://x/Interaction/id1"

/-- A Reactome `Complex` listed among its own components. -/
def reactomeCycEntities : List (String × EntityMeta) :=
  [("http://x/Complex1", ⟨"Complex", ["http://x/Complex1"]⟩)]

/-! ## Spec-side artifacts

`specTable42` / `specRow` transcribe the fixed relation-kind table of
spec §4.2 (they follow the spec's words, for comparison against
`addSimpleEdgeKegg`); `normStable` captures the side conditions under
which a second `normalize_graph_names` pass is provably the identity. -/

/-- The edge semantics a row of the §4.2 table prescribes. -/
inductive SpecEdge where
  | modIncrease (tag : String)
  | modDecrease (tag : String)
  | activationInc
  | catalyticInc
  | inhibitionDec
  | assoc
  | rnaIncrease
  | rnaDecrease
  | noEdge
  deriving DecidableEq, Repr

/-- The fixed subtype table of spec §4.2 (subtype string to prescribed
edge semantics). -/
def specTable42 : List (String × SpecEdge) :=
  [("phosphorylation", .modIncrease "Ph"), ("glycosylation", .modIncrease "Glyco"),
   ("ubiquitination", .modIncrease "Ub"), ("methylation", .modIncrease "Me"),
   ("dephosphorylation", .modDecrease "Ph"),
   ("activation", .activationInc),
   ("reversible", .catalyticInc), ("irreversible", .catalyticInc),
   ("inhibition", .inhibitionDec),
   ("indirect effect", .assoc), ("binding/association", .assoc),
   ("expression", .rnaIncrease), ("repression", .rnaDecrease),
   ("dissociation", .noEdge), ("hidden compound", .noEdge),
   ("missing interaction", .noEdge), ("state change", .noEdge)]

/-- The claim-relevant projection of an emitted edge: endpoints (with any
modification variant or RNA coercion applied), relation kind, and the
subject/object activity modifiers. -/
def edgeProj (e : EdgeRec) : Bel × Bel × RelKind × Option String × Option String :=
  (e.src, e.tgt, e.kind, e.subjActivity, e.objActivity)

/-- The edge list a §4.2 row prescribes for subject `u` and object `v`
(modification variants and RNA coercion apply to gene-family objects). -/
def specRow (u v : Bel) : SpecEdge → List (Bel × Bel × RelKind × Option String × Option String)
  | .modIncrease tag =>
    [(u, if v.isCentralDogma then v.withPmod tag else v, .increases, some "", none)]
  | .modDecrease tag =>
    [(u, if v.isCentralDogma then v.withPmod tag else v, .decreases, some "", none)]
  | .activationInc => [(u, v, .increases, none, some "")]
  | .catalyticInc => [(u, v, .increases, some "cat", none)]
  | .inhibitionDec => [(u, v, .decreases, none, some "")]
  | .assoc => [(u, v, .association, none, none)]
  | .rnaIncrease => [(u, if v.isCentralDogma then v.getRna else v, .increases, none, none)]
  | .rnaDecrease => [(u, if v.isCentralDogma then v.getRna else v, .decreases, none, none)]
  | .noEdge => []

/-- Side conditions under which the `normalize_graph_names` action at a
node is provably the identity (the amended idempotence claim): the name is
a fixed point of the generic lowercase/strip-quote/strip-space
normalization, the node's class already matches what normalization would
assign (gene-family nodes already `Protein`, or `MicroRna` for `mir`
names), and the curated Reactome / WikiPathways rewrites do not fire. -/
def NormStable (database : String) (node : Bel) : Prop :=
  match node with
  | .complexAb .. | .compositeAb .. | .rxn .. => True
  | _ =>
    match node.nodeName with
    | none => True
    | some s =>
      s = "" ∨
      (normName s = s ∧
       match node with
       | .protein _ _ _ vars =>
         vars = [] ∧ strHasPre "mir" s = false ∧
         (database = "reactome" → charIn ',' s = false ∧ charIn '/' s = false) ∧
         (database = "wikipathways" → s ∉ WIKIPATHWAYS_BIOL_PROCESS)
       | .microRna _ _ ident vars =>
         vars = [] ∧ strHasPre "mir" s = true ∧ strContains "mir-" s = false ∧
         (database = "reactome" →
           charIn ',' s = false ∧ charIn '/' s = false ∧
           stripGenesChars s = s ∧ ident = none)
       | .gene .. | .rna .. => False
       | .abundance .. =>
         (database = "wikipathways" →
           s ∉ WIKIPATHWAYS_BIOL_PROCESS ∧
           ((node.nodeNs = some "WIKIDATA" ∨ node.nodeNs = some "WIKIPATHWAYS"
             ∨ node.nodeNs = some "REACTOME") → s ∈ WIKIPATHWAYS_METAB) ∧
           WIKIPATHWAYS_NAME_NORMALIZATION.lookup s = none) ∧
         (database = "reactome" →
           s ∉ REACTOME_PROT ∧
           (charIn ',' s = true → (splitStr ',' s).all isAlphaStr = false))
       | .bioProcess .. => strHasPre "title:" s = false
       | _ => True)

/-! ## Helper lemmas -/

theorem strMk_toList (s : String) : String.mk s.toList = s := by
  cases s
  rfl

theorem replaceAux_of_not_occurs (pat rep : List Char) (n : Nat) (l : List Char)
    (h : subListOccurs pat l = false) : replaceAux pat rep n l = l := by
  induction n generalizing l with
  | zero => rfl
  | succ n ih =>
    cases l with
    | nil => rfl
    | cons c cs =>
      simp only [subListOccurs, Bool.or_eq_false_iff] at h
      rw [replaceAux, if_neg (by simp [h.1]), ih cs h.2]

theorem replaceSub_of_not_contains (s pat rep : String)
    (h : strContains pat s = false) : replaceSub s pat rep = s := by
  unfold replaceSub
  rw [replaceAux_of_not_occurs _ _ _ _ h, strMk_toList]

/-! ## Claims -/

/-- C3 (corrected), counterexample: a `PCrel` relation with a `compound`
subtype carrying a `value` attribute yields exactly one
binding/association tuple, not the three the claim asserts. -/
theorem c3_pcrel_counterexample :
    getAllRelationships [⟨some "5", some "7", "PCrel", [⟨some "compound", some "9"⟩]⟩] =
      [(some "5", some "7", some "binding/association")] ∧
    (getAllRelationships
        [⟨some "5", some "7", "PCrel", [⟨some "compound", some "9"⟩]⟩]).length ≠ 3 := by
  exact ⟨rfl, by decide⟩

/-- C3 (amended): only an `ECrel` relation gets the synthetic three-tuple
expansion through its subtype's `value` entity; a `PCrel` relation with one
subtype yields a single tuple — `binding/association` when the subtype is
`compound`, otherwise the subtype name itself. -/
theorem c3_relation_expansion :
    (∀ (e1 e2 nm val : Option String),
      getAllRelationships [⟨e1, e2, "ECrel", [⟨nm, val⟩]⟩] =
        [(e1, e2, some "binding/association"),
         (e1, val, some "binding/association"),
         (val, e2, some "binding/association")]) ∧
    (∀ (e1 e2 nm val : Option String),
      getAllRelationships [⟨e1, e2, "PCrel", [⟨nm, val⟩]⟩] =
        if nm == some "compound" then [(e1, e2, some "binding/association")]
        else [(e1, e2, nm)]) := by
  constructor
  · intro e1 e2 nm val
    rfl
  · intro e1 e2 nm val
    by_cases h : nm = some "compound"
    · subst h
      rfl
    · have hb : (nm == some "compound") = false := by
        simpa using h
      simp [getAllRelationships, relationshipTuples, hb, h]

/-- C6 (corrected), counterexample: a directed interaction whose RDF type
set contains `TranscriptionTranslation` together with the (always present)
supertype `Interaction` produces no edge at all — the `Interaction` branch
of the `elif` chain shadows the translation branch. -/
theorem c6_shadowed_counterexample :
    addSimpleEdgeWp (Bel.protein (some "HGNC") (some "a") (some "1") [])
      (Bel.protein (some "HGNC") (some "b") (some "2") [])
      ["TranscriptionTranslation", "Interaction"] "w" = [] := rfl

/-- C6 (amended): the translation edge is emitted exactly when the type
set contains `TranscriptionTranslation` and none of the five
earlier-matched branch types (`Stimulation`, `Inhibition`, `Catalysis`,
`DirectedInteraction`, `Interaction`). -/
theorem c6_translation_edge (u v : Bel) (ets : List String) (uri : String)
    (h1 : "TranscriptionTranslation" ∈ ets)
    (h2 : "Stimulation" ∉ ets)
    (h3 : "Inhibition" ∉ ets)
    (h4 : "Catalysis" ∉ ets)
    (h5 : "DirectedInteraction" ∉ ets)
    (h6 : "Interaction" ∉ ets) :
    addSimpleEdgeWp u v ets uri = [⟨u, v, .translation, "", "", none, none, []⟩] := by
  simp [addSimpleEdgeWp, h1, h2, h3, h4, h5, h6]

theorem c6_translation_edge_witness :
    addSimpleEdgeWp (Bel.gene (some "HGNC") (some "g") (some "3") [])
      (Bel.protein (some "HGNC") (some "p") (some "4") [])
      ["TranscriptionTranslation"] "w" =
      [⟨Bel.gene (some "HGNC") (some "g") (some "3") [],
        Bel.protein (some "HGNC") (some "p") (some "4") [],
        .translation, "", "", none, none, []⟩] :=
  c6_translation_edge _ _ _ _ (by decide) (by decide) (by decide) (by decide)
    (by decide) (by decide)

/-- C4 (corrected), counterexample: the Reactome converter attaches the
object activity modifier even to a biological-process object, and the
WikiPathways converter omits it on a `Gene` object (`gene` is not in
`ACTIVITY_ALLOWED_MODIFIERS`), both contradicting the claimed
allowed-variant set {Protein, RNA, Gene, Abundance, Complex}. -/
theorem c4_activity_counterexample :
    addSimpleEdgeReactome (Bel.protein (some "HGNC") (some "a") (some "1") [])
      (Bel.bioProcess (some "reactome") (some "p") (some "2")) "ACTIVATION" "u" =
      [⟨Bel.protein (some "HGNC") (some "a") (some "1") [],
        Bel.bioProcess (some "reactome") (some "p") (some "2"),
        .increases, "u", "", none, some "", []⟩] ∧
    addSimpleEdgeWp (Bel.protein (some "HGNC") (some "a") (some "1") [])
      (Bel.gene (some "HGNC") (some "g") (some "3") []) ["Stimulation"] "u" =
      [⟨Bel.protein (some "HGNC") (some "a") (some "1") [],
        Bel.gene (some "HGNC") (some "g") (some "3") [],
        .increases, "u", "Extracted from WikiPathways", none, none, []⟩] :=
  ⟨rfl, rfl⟩

/-- C4 (amended): WikiPathways `Stimulation` / `Inhibition` / `Catalysis`
edges carry the object activity modifier exactly when the object is an
`Abundance`, `Protein`, `ComplexAbundance` or `Rna` (`activityAllowed`);
the Reactome converter attaches the modifier unconditionally for
`ACTIVATION` and `INHIBITION`. -/
theorem c4_conditional_activity :
    (∀ (u v : Bel) (ets : List String) (uri : String),
      "Stimulation" ∈ ets →
      addSimpleEdgeWp u v ets uri =
        [⟨u, v, .increases, uri, "Extracted from WikiPathways", none,
          if activityAllowed v then some "" else none, []⟩]) ∧
    (∀ (u v : Bel) (ets : List String) (uri : String),
      "Stimulation" ∉ ets → "Inhibition" ∈ ets →
      addSimpleEdgeWp u v ets uri =
        [⟨u, v, .decreases, uri, "Extracted from WikiPathways", none,
          if activityAllowed v then some "" else none, []⟩]) ∧
    (∀ (u v : Bel) (ets : List String) (uri : String),
      "Stimulation" ∉ ets → "Inhibition" ∉ ets → "Catalysis" ∈ ets →
      addSimpleEdgeWp u v ets uri =
        [⟨u, v, .increases, uri, "Extracted from WikiPathways", none,
          if activityAllowed v then some "" else none, []⟩]) ∧
    (∀ (u v : Bel) (et uri : String),
      strContains "ACTIVATION" et = true →
      addSimpleEdgeReactome u v et uri = [⟨u, v, .increases, uri, "", none, some "", []⟩]) ∧
    (∀ (u v : Bel) (et uri : String),
      strContains "ACTIVATION" et = false → strContains "INHIBITION" et = true →
      addSimpleEdgeReactome u v et uri = [⟨u, v, .decreases, uri, "", none, some "", []⟩]) := by
  refine ⟨?_, ?_, ?_, ?_, ?_⟩
  · intro u v ets uri h1; simp [addSimpleEdgeWp, h1]
  · intro u v ets uri h1 h2; simp [addSimpleEdgeWp, h1, h2]
  · intro u v ets uri h1 h2 h3; simp [addSimpleEdgeWp, h1, h2, h3]
  · intro u v et uri h1; simp [addSimpleEdgeReactome, h1]
  · intro u v et uri h1 h2; simp [addSimpleEdgeReactome, h1, h2]

theorem c4_conditional_activity_witness :
    addSimpleEdgeWp (Bel.protein (some "HGNC") (some "a") (some "1") [])
      (Bel.abundance (some "ChEBI") (some "m") (some "5")) ["Stimulation"] "u" =
      [⟨Bel.protein (some "HGNC") (some "a") (some "1") [],
        Bel.abundance (some "ChEBI") (some "m") (some "5"),
        .increases, "u", "Extracted from WikiPathways", none,
        if activityAllowed (Bel.abundance (some "ChEBI") (some "m") (some "5"))
          then some "" else none, []⟩] :=
  c4_conditional_activity.1 _ _ _ _ (by decide)

/-- C1 (corrected), counterexample: on a registry where one UniProt id
maps to two HGNC entries, the WikiPathways resolver returns the plain
HGNC triple of the *first* entry and the KEGG post-processing keeps only
the first entry's id/symbol — neither signals the multi-entry condition or
builds a composite. -/
theorem c1_first_entry_counterexample :
    validateQuery (fun _ => none) [⟨"A", "1", "10"⟩, ⟨"B", "2", "20"⟩] "P11111" "UniProt" =
      ("HGNC", "A", "1") ∧
    postProcessApiQuery (fun _ => none) (fun _ => [⟨"A", "1", "10"⟩, ⟨"B", "2", "20"⟩])
      (fun _ => none) [("UniProt", "P11111")] =
      [("HGNC", "1"), ("HGNC symbol", "A")] :=
  ⟨rfl, rfl⟩

/-- C1 (amended): when the gene registry resolves a UniProt id to more
than one HGNC entry, only the Reactome converter builds a composite node
over all candidate proteins; the WikiPathways resolver logs the ambiguity
and returns the first entry's HGNC triple, and the KEGG post-processing
keeps the first entry's HGNC id and symbol. -/
theorem c1_multi_entry_resolution (reg : String → List HgncEntry)
    (aliasF hById : String → Option HgncEntry) (chebiF : String → Option String)
    (e1 e2 : HgncEntry) (rest : List HgncEntry) (uid nm : String)
    (hreg : reg uid = e1 :: e2 :: rest) (hsym : e1.symbol ≠ "") :
    reactomeNodeToBelUniprot reg uid nm =
      .compositeAb (processMultipleProteins (e1 :: e2 :: rest)) ∧
    validateQuery aliasF (reg uid) uid "UniProt" = ("HGNC", e1.symbol, e1.identifier) ∧
    postProcessApiQuery hById reg chebiF [("UniProt", uid)] =
      [("HGNC", e1.identifier), ("HGNC symbol", e1.symbol)] := by
  refine ⟨?_, ?_, ?_⟩
  · unfold reactomeNodeToBelUniprot
    rw [hreg]
  · unfold validateQuery
    rw [hreg]
    simp
  · unfold postProcessApiQuery postProcessStep
    simp only [List.foldl_cons, List.foldl_nil]
    rw [hreg]
    simp [dictSet, dictGet, List.lookup, bne_iff_ne, hsym]

theorem c1_multi_entry_resolution_witness :
    reactomeNodeToBelUniprot (fun _ => [⟨"A", "1", "10"⟩, ⟨"B", "2", "20"⟩]) "P1" "n" =
      .compositeAb (processMultipleProteins [⟨"A", "1", "10"⟩, ⟨"B", "2", "20"⟩]) ∧
    validateQuery (fun _ => none)
      ((fun _ => [(⟨"A", "1", "10"⟩ : HgncEntry), ⟨"B", "2", "20"⟩]) "P1") "P1" "UniProt" =
      ("HGNC", "A", "1") ∧
    postProcessApiQuery (fun _ => none) (fun _ => [⟨"A", "1", "10"⟩, ⟨"B", "2", "20"⟩])
      (fun _ => none) [("UniProt", "P1")] = [("HGNC", "1"), ("HGNC symbol", "A")] :=
  c1_multi_entry_resolution _ _ _ _ ⟨"A", "1", "10"⟩ ⟨"B", "2", "20"⟩ [] "P1" "n"
    rfl (by decide)

/-- C8 (confirmed): a KEGG relation tuple whose source or target id is not
a key of the node dictionary is skipped silently — no edge is emitted and
no error is raised. -/
theorem c8_missing_node_skipped (nodes : List (String × NodeOrList))
    (t : Option String × Option String × Option String)
    (h : lookupNode nodes t.1 = none ∨ lookupNode nodes t.2.1 = none) :
    addEdgesTuple nodes t = .ok [] := by
  cases h1 : lookupNode nodes t.1 <;> cases h2 : lookupNode nodes t.2.1 <;>
    simp_all [addEdgesTuple]

theorem c8_missing_node_skipped_witness :
    addEdgesTuple [] (some "1", some "2", some "phosphorylation") = .ok [] :=
  c8_missing_node_skipped [] (some "1", some "2", some "phosphorylation") (Or.inl rfl)

/-- C5 (confirmed): a KEGG gene entry with two ids that resolve to two
distinct HGNC symbols yields, in flatten mode, a plain list of exactly the
two protein nodes, and in composite mode one composite node over those
same two protein nodes. -/
theorem c5_gene_entry_modes (a1 a2 : PyDict) (i1 s1 i2 s2 : String)
    (h1 : dictGet a1 "HGNC" = some i1) (h2 : dictGet a1 "HGNC symbol" = some s1)
    (h3 : dictGet a2 "HGNC" = some i2) (h4 : dictGet a2 "HGNC symbol" = some s2)
    (_hne : s1 ≠ s2) :
    flattenGeneToBelNode [a1, a2] =
      some (.many [.protein (some "HGNC") (some s1) (some i1) [],
                   .protein (some "HGNC") (some s2) (some i2) []]) ∧
    geneToBelNode [a1, a2] =
      some (.compositeAb [.protein (some "HGNC") (some s1) (some i1) [],
                          .protein (some "HGNC") (some s2) (some i2) []]) := by
  have k1 : keggProteinFromAttr a1 = some (.protein (some "HGNC") (some s1) (some i1) []) := by
    simp [keggProteinFromAttr, h1, h2]
  have k2 : keggProteinFromAttr a2 = some (.protein (some "HGNC") (some s2) (some i2) []) := by
    simp [keggProteinFromAttr, h3, h4]
  constructor
  · simp [flattenGeneToBelNode, mapOption, k1, k2]
  · simp [geneToBelNode, mapOption, k1, k2]

theorem c5_gene_entry_modes_witness :
    flattenGeneToBelNode [[("kegg_id", "hsa:1"), ("HGNC", "1"), ("HGNC symbol", "A")],
        [("kegg_id", "hsa:2"), ("HGNC", "2"), ("HGNC symbol", "B")]] =
      some (.many [.protein (some "HGNC") (some "A") (some "1") [],
                   .protein (some "HGNC") (some "B") (some "2") []]) ∧
    geneToBelNode [[("kegg_id", "hsa:1"), ("HGNC", "1"), ("HGNC symbol", "A")],
        [("kegg_id", "hsa:2"), ("HGNC", "2"), ("HGNC symbol", "B")]] =
      some (.compositeAb [.protein (some "HGNC") (some "A") (some "1") [],
                          .protein (some "HGNC") (some "B") (some "2") []]) :=
  c5_gene_entry_modes _ _ "1" "A" "2" "B" rfl rfl rfl rfl (by decide)

/-- C2 (confirmed): for every subtype in the fixed §4.2 table the KEGG
edge builder emits exactly the prescribed edge (relation kind, activity
modifiers, modification variant, RNA coercion, or no edge), and every
subtype outside the table raises `ValueError` without emitting an edge. -/
theorem c2_kegg_relation_table (rt : String) (u v : Bel) :
    (∀ row ∈ specTable42, ∃ es, addSimpleEdgeKegg u v (some row.1) = .ok es ∧
      es.map edgeProj = specRow u v row.2) ∧
    (rt ∉ specTable42.map Prod.fst →
      addSimpleEdgeKegg u v (some rt) = .error ("Unexpected relation type " ++ rt)) := by
  constructor
  · intro row hrow
    fin_cases hrow <;> exact ⟨_, rfl, rfl⟩
  · intro hrt
    simp only [specTable42, List.map_cons, List.map_nil, List.mem_cons,
      List.not_mem_nil, or_false, not_or] at hrt
    obtain ⟨n1, n2, n3, n4, n5, n6, n7, n8, n9, n10, n11, n12, n13, n14, n15, n16, n17⟩ := hrt
    simp [addSimpleEdgeKegg, n1, n2, n3, n4, n5, n6, n7, n8, n9, n10, n11, n12,
      n13, n14, n15, n16, n17]

theorem c2_kegg_relation_table_witness :
    (∃ es, addSimpleEdgeKegg (Bel.protein (some "HGNC") (some "a") (some "1") [])
        (Bel.protein (some "HGNC") (some "b") (some "2") []) (some "activation") = .ok es ∧
      es.map edgeProj = specRow (Bel.protein (some "HGNC") (some "a") (some "1") [])
        (Bel.protein (some "HGNC") (some "b") (some "2") []) .activationInc) ∧
    addSimpleEdgeKegg (Bel.protein (some "HGNC") (some "a") (some "1") [])
        (Bel.protein (some "HGNC") (some "b") (some "2") []) (some "bogus") =
      .error "Unexpected relation type bogus" :=
  ⟨(c2_kegg_relation_table "bogus" _ _).1 ("activation", .activationInc) (by decide),
   (c2_kegg_relation_table "bogus" _ _).2 (by decide)⟩

/-- C7 (corrected), counterexample: a node named `' "x" '` (quotes nested
inside whitespace) is renamed to `'"x"'` by the first normalization pass
and renamed again (to `'x'`) by the second pass — the second application is
not the identity. -/
theorem c7_not_idempotent_counterexample :
    normalizeNode "kegg" (Bel.abundance (some "KEGG") (some " \"x\" ") (some "1")) =
      (some (Bel.abundance (some "KEGG") (some "\"x\"") (some "1")), []) ∧
    normalizeNode "kegg" (Bel.abundance (some "KEGG") (some "\"x\"") (some "1")) =
      (some (Bel.abundance (some "KEGG") (some "x") (some "1")), []) ∧
    ("x" : String) ≠ "\"x\"" :=
  ⟨rfl, rfl, by decide⟩

/-- C10 (corrected), counterexample: the Reactome miRNA one-to-one
replacement drops the node identifier (`MicroRna` is rebuilt without the
`identifier` argument), so more than the display name and entity class
changes. -/
theorem c10_identifier_dropped_counterexample :
    normalizeNode "reactome" (Bel.protein (some "HGNC") (some "mir-21") (some "449") []) =
      (some (Bel.microRna (some "HGNC") (some "mir21") none []), []) ∧
    (some "449" : Option String) ≠ none :=
  ⟨rfl, by decide⟩

/-- C10 (amended): `normalize_graph_names` preserves every node's
namespace — every one-to-one replacement and every one-to-many survivor is
built with the victim's namespace; the display name and entity class may
change, and the Reactome miRNA one-to-one replacement additionally drops
the identifier. -/
theorem c10_namespace_preserved (database : String) (n : Bel) :
    (∀ m, (normalizeNode database n).1 = some m → m.nodeNs = n.nodeNs) ∧
    (∀ m ∈ (normalizeNode database n).2, m.nodeNs = n.nodeNs) := by
  have key : ∀ (name lowerName : String),
      (∀ m, (normalizeNamed database n name lowerName).1 = some m → m.nodeNs = n.nodeNs) ∧
      (∀ m ∈ (normalizeNamed database n name lowerName).2, m.nodeNs = n.nodeNs) := by
    intro name lowerName
    unfold normalizeNamed
    repeat' split
    all_goals constructor
    all_goals intro m hm
    all_goals
      first
      | exact Option.noConfusion hm
      | (have h := Option.some.inj hm; subst h; rfl)
      | exact absurd hm (List.not_mem_nil m)
      | (obtain ⟨x, -, rfl⟩ := List.mem_map.mp hm; rfl)
      | (obtain ⟨x, -, hfx⟩ := List.mem_filterMap.mp hm
         split at hfx
         · exact Option.noConfusion hfx
         · (have h := Option.some.inj hfx; subst h; rfl))
  unfold normalizeNode
  split
  · exact ⟨fun m hm => Option.noConfusion hm, fun m hm => absurd hm (List.not_mem_nil m)⟩
  · exact key _ _

theorem c10_namespace_preserved_witness :
    (Bel.microRna (some "HGNC") (some "mir21") none []).nodeNs =
      (Bel.protein (some "HGNC") (some "mir-21") (some "449") []).nodeNs :=
  (c10_namespace_preserved "reactome"
    (Bel.protein (some "HGNC") (some "mir-21") (some "449") [])).1
    (Bel.microRna (some "HGNC") (some "mir21") none []) rfl

/-- C7 (amended): the second pass of `normalize_graph_names` is the
identity on every node satisfying `NormStable` — its name is a fixed point
of the lowercase/strip-quote/strip-space normalization, its class already
matches the normalized class, and the curated Reactome/WikiPathways
rewrites (comma/slash splitting, reclassification sets, the alias table,
the `title:`/`mir-` prefixes) do not fire.  Without those side conditions
a second pass can rename again (see the counterexample). -/
theorem c7_second_pass_identity (database : String) (n : Bel)
    (h : NormStable database n) :
    normalizeNode database n = (some n, []) ∨ normalizeNode database n = (none, []) := by
  cases n with
  | complexAb ms ns id => right; rfl
  | compositeAb ms => right; rfl
  | rxn r p => right; rfl
  | gene ns nm id vars =>
    cases nm with
    | none => right; rfl
    | some s =>
      by_cases hse : s = ""
      · subst hse; right; rfl
      · simp only [NormStable, Bel.nodeName] at h
        rcases h with hs | ⟨-, hF⟩
        · exact absurd hs hse
        · exact hF.elim
  | rna ns nm id vars =>
    cases nm with
    | none => right; rfl
    | some s =>
      by_cases hse : s = ""
      · subst hse; right; rfl
      · simp only [NormStable, Bel.nodeName] at h
        rcases h with hs | ⟨-, hF⟩
        · exact absurd hs hse
        · exact hF.elim
  | protein ns nm id vars =>
    cases nm with
    | none => right; rfl
    | some s =>
      by_cases hse : s = ""
      · subst hse; right; rfl
      · left
        simp only [NormStable, Bel.nodeName] at h
        rcases h with hs | ⟨hnn, hvars, hmir, hrct, hwpc⟩
        · exact absurd hs hse
        · subst hvars
          have hsb : (s == "") = false := by simpa using hse
          simp only [normalizeNode, Bel.isListAbundance, Bel.isReaction, Bel.nodeName,
            Option.getD_some, Bool.or_self, Bool.false_or, hsb, Bool.false_eq_true,
            if_false, hnn]
          by_cases hdb : database = "reactome"
          · obtain ⟨hc, hsl⟩ := hrct hdb
            have hdbb : (database == "reactome") = true := by simpa using hdb
            simp [normalizeNamed, Bel.isCentralDogma, Bel.nodeNs, Bel.nodeIdent,
              hmir, hdbb, mungeReactomeGene, hc, hsl]
          · by_cases hwpq : database = "wikipathways"
            · have hdbb : (database == "reactome") = false := by simpa using hdb
              have hwpb : (database == "wikipathways") = true := by simpa using hwpq
              simp [normalizeNamed, Bel.isCentralDogma, Bel.nodeNs, Bel.nodeIdent,
                hmir, hdbb, hwpb, hwpc hwpq]
            · have h1 : (database == "reactome") = false := by simpa using hdb
              have h2 : (database == "wikipathways") = false := by simpa using hwpq
              simp [normalizeNamed, Bel.isCentralDogma, Bel.nodeNs, Bel.nodeIdent,
                hmir, h1, h2]
  | microRna ns nm id vars =>
    cases nm with
    | none => right; rfl
    | some s =>
      by_cases hse : s = ""
      · subst hse; right; rfl
      · left
        simp only [NormStable, Bel.nodeName] at h
        rcases h with hs | ⟨hnn, hvars, hmirT, hnomir, hrct⟩
        · exact absurd hs hse
        · subst hvars
          have hsb : (s == "") = false := by simpa using hse
          simp only [normalizeNode, Bel.isListAbundance, Bel.isReaction, Bel.nodeName,
            Option.getD_some, Bool.or_self, Bool.false_or, hsb, Bool.false_eq_true,
            if_false, hnn]
          by_cases hdb : database = "reactome"
          · obtain ⟨hc, hsl, hsg, hid⟩ := hrct hdb
            subst hid
            have hdbb : (database == "reactome") = true := by simpa using hdb
            simp [normalizeNamed, Bel.isCentralDogma, Bel.nodeNs, Bel.nodeIdent,
              hmirT, hdbb, mungeReactomeGene, hc, hsl, hsg,
              replaceSub_of_not_contains _ _ _ hnomir]
          · have hdbb : (database == "reactome") = false := by simpa using hdb
            simp [normalizeNamed, Bel.isCentralDogma, Bel.nodeNs, Bel.nodeIdent,
              hmirT, hdbb, replaceSub_of_not_contains _ _ _ hnomir]
  | abundance ns nm id =>
    cases nm with
    | none => right; rfl
    | some s =>
      by_cases hse : s = ""
      · subst hse; right; rfl
      · left
        simp only [NormStable, Bel.nodeName] at h
        rcases h with hs | ⟨hnn, hwpc, hrct⟩
        · exact absurd hs hse
        · have hsb : (s == "") = false := by simpa using hse
          simp only [normalizeNode, Bel.isListAbundance, Bel.isReaction, Bel.nodeName,
            Option.getD_some, Bool.or_self, Bool.false_or, hsb, Bool.false_eq_true,
            if_false, hnn]
          by_cases hwpq : database = "wikipathways"
          · obtain ⟨hb1, hb2, hb3⟩ := hwpc hwpq
            simp only [Bel.nodeNs] at hb2
            have hwpb : (database == "wikipathways") = true := by simpa using hwpq
            have hpcond : ¬(((ns = some "WIKIDATA" ∨ ns = some "WIKIPATHWAYS")
                ∨ ns = some "REACTOME") ∧ s ∉ WIKIPATHWAYS_METAB) := by
              rintro ⟨hor, hnm⟩
              exact hnm (hb2 (by tauto))
            simp [normalizeNamed, Bel.isCentralDogma, Bel.isAbundanceCls,
              Bel.nodeNs, Bel.nodeIdent, hwpb, hb1, hpcond, hb3]
          · by_cases hdbq : database = "reactome"
            · obtain ⟨hp, hcomma⟩ := hrct hdbq
              have hdbb : (database == "reactome") = true := by simpa using hdbq
              have hwpb : (database == "wikipathways") = false := by simpa using hwpq
              simp [normalizeNamed, Bel.isCentralDogma, Bel.isAbundanceCls,
                Bel.nodeNs, Bel.nodeIdent, hwpb, hdbb, hp]
              intro ha
              have hall := hcomma ha
              simpa [List.all_eq_false, Bool.not_eq_true] using hall
            · have h1 : (database == "wikipathways") = false := by simpa using hwpq
              have h2 : (database == "reactome") = false := by simpa using hdbq
              simp [normalizeNamed, Bel.isCentralDogma, Bel.isAbundanceCls,
                Bel.nodeNs, Bel.nodeIdent, h1, h2]
  | bioProcess ns nm id =>
    cases nm with
    | none => right; rfl
    | some s =>
      by_cases hse : s = ""
      · subst hse; right; rfl
      · left
        simp only [NormStable, Bel.nodeName] at h
        rcases h with hs | ⟨hnn, htitle⟩
        · exact absurd hs hse
        · have hsb : (s == "") = false := by simpa using hse
          simp only [normalizeNode, Bel.isListAbundance, Bel.isReaction, Bel.nodeName,
            Option.getD_some, Bool.or_self, Bool.false_or, hsb, Bool.false_eq_true,
            if_false, hnn]
          simp [normalizeNamed, Bel.isCentralDogma, Bel.isAbundanceCls,
            Bel.isBioProcessCls, Bel.nodeNs, Bel.nodeIdent, htitle]

theorem c7_second_pass_identity_witness :
    normalizeNode "wikipathways" (Bel.protein (some "HGNC") (some "tp53") (some "11998") []) =
      (some (Bel.protein (some "HGNC") (some "tp53") (some "11998") []), []) ∨
    normalizeNode "wikipathways" (Bel.protein (some "HGNC") (some "tp53") (some "11998") []) =
      (none, []) :=
  c7_second_pass_identity "wikipathways"
    (Bel.protein (some "HGNC") (some "tp53") (some "11998") [])
    (Or.inr ⟨rfl, rfl, rfl, fun hx => absurd hx (by decide), fun _ => by decide⟩)

/-! ### Fuel lemmas for the recursive walks (C9) -/

theorem getPartsF_congr (f g : String → Option (Option Bel))
    (hfg : ∀ s r, f s = some r → g s = some r) :
    ∀ ps p, getPartsF f ps = some p → getPartsF g ps = some p := by
  intro ps
  induction ps with
  | nil => exact fun p hp => hp
  | cons ab rest ih =>
    obtain ⟨a, b⟩ := ab
    intro p hp
    rw [getPartsF] at hp ⊢
    cases hsrc : f a with
    | none => rw [hsrc] at hp; exact Option.noConfusion hp
    | some ra =>
      rw [hsrc] at hp
      rw [hfg a ra hsrc]
      cases htgt : f b with
      | none => rw [htgt] at hp; exact Option.noConfusion hp
      | some rb =>
        rw [htgt] at hp
        rw [hfg b rb htgt]
        cases hrest : getPartsF f rest with
        | none => rw [hrest] at hp; exact Option.noConfusion hp
        | some pr =>
          rw [hrest] at hp
          rw [ih pr hrest]
          exact hp

theorem getPartsF_total (f : String → Option (Option Bel)) :
    ∀ ps, (∀ ab ∈ ps, (f ab.1).isSome ∧ (f ab.2).isSome) →
      (getPartsF f ps).isSome := by
  intro ps
  induction ps with
  | nil => intro _; rfl
  | cons ab rest ih =>
    obtain ⟨a, b⟩ := ab
    intro hall
    obtain ⟨ha, hb⟩ := hall (a, b) (List.mem_cons_self _ _)
    obtain ⟨ra, hra⟩ := Option.isSome_iff_exists.mp ha
    obtain ⟨rb, hrb⟩ := Option.isSome_iff_exists.mp hb
    have hrest := ih fun ab hab => hall ab (List.mem_cons_of_mem _ hab)
    obtain ⟨pr, hpr⟩ := Option.isSome_iff_exists.mp hrest
    obtain ⟨rs, pps⟩ := pr
    rw [getPartsF, hra, hrb, hpr]
    rfl

theorem getNodeF_mono (ctx : WpCtx) :
    ∀ n m s r, n ≤ m → getNodeF ctx n s = some r → getNodeF ctx m s = some r := by
  intro n
  induction n with
  | zero => exact fun m s r _ h => Option.noConfusion h
  | succ n ih =>
    intro m s r hnm h
    obtain ⟨m', rfl⟩ : ∃ m', m = m' + 1 := ⟨m - 1, by omega⟩
    rw [getNodeF] at h ⊢
    cases hlk : ctx.nodes.lookup s with
    | some b => rw [hlk] at h; exact h
    | none =>
      rw [hlk] at h
      by_cases hint : strContains "/Interaction/" s = true
      · rw [if_pos hint] at h ⊢
        cases hitk : ctx.interactions.lookup (parseIdIdentifier s) with
        | none => rw [hitk] at h; exact h
        | some ps =>
          rw [hitk] at h
          have h2 : (match getPartsF (getNodeF ctx n) ps with
              | none => none
              | some (rs, prods) => some (some (Bel.rxn rs prods))) = some r := h
          show (match getPartsF (getNodeF ctx m') ps with
              | none => none
              | some (rs, prods) => some (some (Bel.rxn rs prods))) = some r
          cases hparts : getPartsF (getNodeF ctx n) ps with
          | none => rw [hparts] at h2; exact Option.noConfusion h2
          | some pr =>
            rw [hparts] at h2
            rw [getPartsF_congr (getNodeF ctx n) (getNodeF ctx m')
              (fun s' r' h' => ih m' s' r' (by omega) h') ps pr hparts]
            exact h2
      · rw [if_neg hint] at h ⊢
        exact h

theorem getNodeF_total (ctx : WpCtx) (μ : String → Nat)
    (hμ : ∀ s ps, ctx.nodes.lookup s = none → strContains "/Interaction/" s = true →
      ctx.interactions.lookup (parseIdIdentifier s) = some ps →
      ∀ ab ∈ ps, μ ab.1 < μ s ∧ μ ab.2 < μ s) :
    ∀ s, (getNodeF ctx (μ s + 1) s).isSome := by
  have main : ∀ k s, μ s < k → (getNodeF ctx (μ s + 1) s).isSome := by
    intro k
    induction k with
    | zero => intro s hs; omega
    | succ k ih =>
      intro s hs
      rw [getNodeF]
      cases hlk : ctx.nodes.lookup s with
      | some b => rfl
      | none =>
        by_cases hint : strContains "/Interaction/" s = true
        · rw [if_pos hint]
          cases hitk : ctx.interactions.lookup (parseIdIdentifier s) with
          | none => rfl
          | some ps =>
            have hdec := hμ s ps hlk hint hitk
            have hparts : (getPartsF (getNodeF ctx (μ s)) ps).isSome := by
              refine getPartsF_total _ ps fun ab hab => ?_
              obtain ⟨h1, h2⟩ := hdec ab hab
              constructor
              · obtain ⟨r, hr⟩ := Option.isSome_iff_exists.mp (ih ab.1 (by omega))
                rw [getNodeF_mono ctx (μ ab.1 + 1) (μ s) ab.1 r (by omega) hr]
                rfl
              · obtain ⟨r, hr⟩ := Option.isSome_iff_exists.mp (ih ab.2 (by omega))
                rw [getNodeF_mono ctx (μ ab.2 + 1) (μ s) ab.2 r (by omega) hr]
                rfl
            obtain ⟨pr, hpr⟩ := Option.isSome_iff_exists.mp hparts
            obtain ⟨rs, pps⟩ := pr
            show (match getPartsF (getNodeF ctx (μ s)) ps with
                | none => none
                | some (rs, prods) => some (some (Bel.rxn rs prods))).isSome = true
            rw [hpr]
            rfl
        · rw [if_neg hint]
          rfl
  exact fun s => main (μ s + 1) s (by omega)

theorem wpCyc_diverges : ∀ fuel, getNodeF wpCycCtx fuel wpCycStart = none := by
  intro fuel
  induction fuel with
  | zero => rfl
  | succ n ih =>
    rw [getNodeF]
    show (match getPartsF (getNodeF wpCycCtx n) [(wpCycStart, wpCycStart)] with
          | none => none
          | some (rs, prods) => some (some (Bel.rxn rs prods))) = none
    rw [getPartsF, ih]

theorem metaListF_congr (f g : String → Option MetaTree)
    (hfg : ∀ s r, f s = some r → g s = some r) :
    ∀ cs ts, metaListF f cs = some ts → metaListF g cs = some ts := by
  intro cs
  induction cs with
  | nil => exact fun ts h => h
  | cons c rest ih =>
    intro ts h
    rw [metaListF] at h ⊢
    cases hc : f c with
    | none => rw [hc] at h; exact Option.noConfusion h
    | some t =>
      rw [hc] at h
      rw [hfg c t hc]
      cases hrest : metaListF f rest with
      | none => rw [hrest] at h; exact Option.noConfusion h
      | some ts' =>
        rw [hrest] at h
        rw [ih ts' hrest]
        exact h

theorem metaListF_total (f : String → Option MetaTree) :
    ∀ cs, (∀ c ∈ cs, (f c).isSome) → (metaListF f cs).isSome := by
  intro cs
  induction cs with
  | nil => intro _; rfl
  | cons c rest ih =>
    intro hall
    obtain ⟨t, ht⟩ := Option.isSome_iff_exists.mp (hall c (List.mem_cons_self _ _))
    have hrest := ih fun c' hc' => hall c' (List.mem_cons_of_mem _ hc')
    obtain ⟨ts, hts⟩ := Option.isSome_iff_exists.mp hrest
    rw [metaListF, ht, hts]
    rfl

theorem getMetaF_mono (entities : List (String × EntityMeta)) :
    ∀ n m uri r, n ≤ m → getMetaF entities n uri = some r →
      getMetaF entities m uri = some r := by
  intro n
  induction n with
  | zero => exact fun m uri r _ h => Option.noConfusion h
  | succ n ih =>
    intro m uri r hnm h
    obtain ⟨m', rfl⟩ : ∃ m', m = m' + 1 := ⟨m - 1, by omega⟩
    rw [getMetaF] at h ⊢
    by_cases hc : (((entities.lookup uri).getD ⟨"unknown", []⟩).entityType == "Complex") = true
    · rw [if_pos hc] at h ⊢
      cases hl : metaListF (getMetaF entities n)
          ((entities.lookup uri).getD ⟨"unknown", []⟩).components with
      | none => rw [hl] at h; exact Option.noConfusion h
      | some ts =>
        rw [hl] at h
        rw [metaListF_congr (getMetaF entities n) (getMetaF entities m')
          (fun s' r' h' => ih m' s' r' (by omega) h') _ ts hl]
        exact h
    · rw [if_neg hc] at h ⊢
      exact h

theorem getMetaF_total (entities : List (String × EntityMeta)) (ν : String → Nat)
    (hν : ∀ uri m, entities.lookup uri = some m → m.entityType = "Complex" →
      ∀ c ∈ m.components, ν c < ν uri) :
    ∀ uri, (getMetaF entities (ν uri + 1) uri).isSome := by
  have main : ∀ k uri, ν uri < k → (getMetaF entities (ν uri + 1) uri).isSome := by
    intro k
    induction k with
    | zero => intro uri h; omega
    | succ k ih =>
      intro uri hk
      rw [getMetaF]
      cases hlk : entities.lookup uri with
      | none => rfl
      | some m =>
        show (if (m.entityType == "Complex") = true then
            match metaListF (getMetaF entities (ν uri)) m.components with
            | none => none
            | some ts => some (MetaTree.node m.entityType ts)
          else some (MetaTree.node m.entityType [])).isSome = true
        by_cases hc : (m.entityType == "Complex") = true
        · rw [if_pos hc]
          have hcx : m.entityType = "Complex" := by simpa using hc
          have hparts : (metaListF (getMetaF entities (ν uri)) m.components).isSome := by
            refine metaListF_total _ m.components fun c hcm => ?_
            have hlt := hν uri m hlk hcx c hcm
            obtain ⟨r, hr⟩ := Option.isSome_iff_exists.mp (ih c (by omega))
            rw [getMetaF_mono entities (ν c + 1) (ν uri) c r (by omega) hr]
            rfl
          obtain ⟨ts, hts⟩ := Option.isSome_iff_exists.mp hparts
          rw [hts]
          rfl
        · rw [if_neg hc]
          rfl
  exact fun uri => main (ν uri + 1) uri (by omega)

theorem reactomeCyc_diverges :
    ∀ fuel, getMetaF reactomeCycEntities fuel "http://x/Complex1" = none := by
  intro fuel
  induction fuel with
  | zero => rfl
  | succ n ih =>
    rw [getMetaF]
    show (match metaListF (getMetaF reactomeCycEntities n) ["http://x/Complex1"] with
          | none => none
          | some ts => some (MetaTree.node "Complex" ts)) = none
    rw [metaListF, ih]

/-- C9 (confirmed): the recursive participant/component walks terminate
exactly under an acyclicity precondition.  Given any decreasing measure on
the interaction-reference relation, `get_node` (and hence
`get_reaction_node`) completes within a bounded recursion depth; likewise
`_get_entity_metadata` for the complex-component relation.  Neither walk
carries a visited-set guard: on a self-referencing interaction or a
complex listed among its own components, the evaluation exhausts every
fuel bound — it does not terminate. -/
theorem c9_walks_terminate_iff_acyclic :
    (∀ (ctx : WpCtx) (μ : String → Nat),
      (∀ s ps, ctx.nodes.lookup s = none → strContains "/Interaction/" s = true →
        ctx.interactions.lookup (parseIdIdentifier s) = some ps →
        ∀ ab ∈ ps, μ ab.1 < μ s ∧ μ ab.2 < μ s) →
      ∀ s, (getNodeF ctx (μ s + 1) s).isSome) ∧
    (∀ fuel, getNodeF wpCycCtx fuel wpCycStart = none) ∧
    (∀ (entities : List (String × EntityMeta)) (ν : String → Nat),
      (∀ uri m, entities.lookup uri = some m → m.entityType = "Complex" →
        ∀ c ∈ m.components, ν c < ν uri) →
      ∀ uri, (getMetaF entities (ν uri + 1) uri).isSome) ∧
    (∀ fuel, getMetaF reactomeCycEntities fuel "http://x/Complex1" = none) :=
  ⟨getNodeF_total, wpCyc_diverges, getMetaF_total, reactomeCyc_diverges⟩

theorem c9_walks_terminate_iff_acyclic_witness :
    (getNodeF ⟨[("n1", Bel.protein (some "HGNC") (some "a") (some "1") [])], []⟩
      ((fun _ => 0) "n1" + 1) "n1").isSome :=
  c9_walks_terminate_iff_acyclic.1
    ⟨[("n1", Bel.protein (some "HGNC") (some "a") (some "1") [])], []⟩ (fun _ => 0)
    (fun s ps _ _ hl => absurd hl (by simp [List.lookup])) "n1"

end PathMe
